import Mathlib

/-!
Shallow embedding of the nsfw_detect_api repository (FastAPI service):
  * `app/utils/rate_limiter.py` — file-based moving-window rate limiter,
    token extraction and token/IP tier selection;
  * `app/detector/__init__.py` and `app/routes/api.py` — label sets and the
    `/isnude` boolean reduction;
  * `app/routes/netdata.py` — reverse proxy (hop-by-hop stripping, HTML
    rewriting, 502 diagnostic page) and the background stress monitor.

Machine floats (`time.time()` values, metric percentages) are modelled by `ℚ`;
Python strings by `String` / `List Char`; the JSON dict persisted by the file
rate limiter by an association list.  The rate-limit file existing on disk is
modelled by `Option`: `none` is "no file yet" (the `FileNotFoundError` branch).
-/

set_option maxRecDepth 40000

/-! ## Python string primitives (ASCII fragment used by the code) -/

/-- Python whitespace test for `str.strip()` / `str.split()` (ASCII range). -/
def isPySpace (c : Char) : Bool :=
  c = ' ' || c = '\t' || c = '\n' || c = '\r' || c = '\x0b' || c = '\x0c'

/-- Python `s.strip()`. -/
def pyStrip (s : String) : String :=
  ⟨((s.data.dropWhile isPySpace).reverse.dropWhile isPySpace).reverse⟩

/-- Python `s.lower()` (ASCII). -/
def pyLower (s : String) : String := ⟨s.data.map Char.toLower⟩

/-- Python `s.split()` with no argument: split on whitespace runs, dropping
empty fields.  `acc` is the word currently being read, reversed. -/
def pySplitAux (acc : List Char) : List Char → List (List Char)
  | [] => if acc = [] then [] else [acc.reverse]
  | c :: t =>
    if isPySpace c then
      if acc = [] then pySplitAux [] t else acc.reverse :: pySplitAux [] t
    else pySplitAux (c :: acc) t

/-- Python `s.split()` packaged on `String`. -/
def pySplit (s : String) : List String := (pySplitAux [] s.data).map (fun l => ⟨l⟩)

/-- Python `s.startswith(pat)`, on character lists. -/
def startsWith : List Char → List Char → Bool
  | [], _ => true
  | _ :: _, [] => false
  | p :: ps, c :: cs => p == c && startsWith ps cs

/-- Case-insensitive match of `pat` at the front of the list, as produced by a
`re.IGNORECASE` pattern over ASCII text. -/
def startsWithCI : List Char → List Char → Bool
  | [], _ => true
  | _ :: _, [] => false
  | p :: ps, c :: cs => p.toLower == c.toLower && startsWithCI ps cs

/-- Python `pat in s` substring containment. -/
def containsSub (pat : List Char) : List Char → Bool
  | [] => pat.isEmpty
  | c :: t => startsWith pat (c :: t) || containsSub pat t

/-- Python `s.replace(pat, rep)`: leftmost, non-overlapping, all occurrences.
Each step consumes at least one character, so running with `fuel = s.length`
computes the full replacement; the fuel only makes the recursion structural.
(The code never calls `replace` with an empty pattern; for `pat = []` this
definition is the identity.) -/
def replaceAllF (pat rep : List Char) : ℕ → List Char → List Char
  | 0, s => s
  | _ + 1, [] => []
  | fuel + 1, c :: t =>
    if pat ≠ [] ∧ startsWith pat (c :: t) = true then
      rep ++ replaceAllF pat rep fuel (t.drop (pat.length - 1))
    else
      c :: replaceAllF pat rep fuel t

/-- Python `s.replace(pat, rep)`. -/
def replaceAll (pat rep s : List Char) : List Char := replaceAllF pat rep s.length s

/-- Case-insensitive `re.sub(pat, rep, s)` for a pattern with no metacharacters
(used for `</head>`): every occurrence is replaced by the literal `rep`.
Fuel as in `replaceAllF`. -/
def replaceAllCIF (pat rep : List Char) : ℕ → List Char → List Char
  | 0, s => s
  | _ + 1, [] => []
  | fuel + 1, c :: t =>
    if pat ≠ [] ∧ startsWithCI pat (c :: t) = true then
      rep ++ replaceAllCIF pat rep fuel (t.drop (pat.length - 1))
    else
      c :: replaceAllCIF pat rep fuel t

/-- Case-insensitive literal-pattern `re.sub`. -/
def replaceAllCI (pat rep s : List Char) : List Char := replaceAllCIF pat rep s.length s

/-! ## Rate limiter (`app/utils/rate_limiter.py`) -/

/-- The JSON dict stored in `nsfw_api_rate_limits.json`: rate key → list of
request timestamps (`time.time()` floats, modelled by `ℚ`). -/
abbrev RateData := List (String × List ℚ)

/-- Python `data[key]` after `if key not in data: data[key] = []`. -/
def lookupKey (data : RateData) (key : String) : List ℚ :=
  match data.find? (fun kv => kv.1 = key) with
  | some kv => kv.2
  | none => []

/-- Python `data[key] = v` on the JSON dict. -/
def setKey (data : RateData) (key : String) (v : List ℚ) : RateData :=
  match data with
  | [] => [(key, v)]
  | kv :: rest => if kv.1 = key then (key, v) :: rest else kv :: setKey rest key v

/-- Embedding of `FileRateLimiter.is_allowed` (rate_limiter.py lines 37-77).
`store = none` models the `FileNotFoundError` branch: no rate file exists yet,
so the request is admitted unconditionally and the file is created holding
`{key: [now]}`.  With an existing file, stale timestamps (`ts ≤ now - window`)
are pruned, the request is rejected when the retained count has reached
`limit` (in which case the early `return False` leaves the file unwritten),
and otherwise `now` is appended and written back. -/
def is_allowed (store : Option RateData) (key : String) (limit : ℕ)
    (window now : ℚ) : Bool × Option RateData :=
  match store with
  | none => (true, some [(key, [now])])
  | some data =>
    let kept := (lookupKey data key).filter (fun ts => now - window < ts)
    if limit ≤ kept.length then (false, some data)
    else (true, some (setKey data key (kept ++ [now])))

/-- Number of recorded timestamps strictly inside the trailing window
(`ts > now - window`), as seen by `is_allowed` before it decides. -/
def recordedWithin (store : Option RateData) (key : String)
    (window now : ℚ) : ℕ :=
  match store with
  | none => 0
  | some data => ((lookupKey data key).filter (fun ts => now - window < ts)).length

/-- Feed a sequence of requests for one key through `is_allowed`, threading the
store; returns the admission verdicts in order plus the final store. -/
def runAllowed (store : Option RateData) (key : String) (limit : ℕ)
    (window : ℚ) : List ℚ → List Bool × Option RateData
  | [] => ([], store)
  | t :: rest =>
    let r := is_allowed store key limit window t
    let rec' := runAllowed r.2 key limit window rest
    (r.1 :: rec'.1, rec'.2)

/-- Embedding of `_hit_or_429` (rate_limiter.py lines 137-151), file-limiter path: the
limit and window are read back out of the parsed rate object (for example
`"30 per 60 second"`) and passed to `is_allowed`; a disallowed request raises
`HTTPException(429)`, modelled as `.error 429`. -/
def hit_or_429 (limit : ℕ) (window : ℚ) (key : String) (now : ℚ)
    (store : Option RateData) : Except ℕ (Option RateData) :=
  let r := is_allowed store key limit window now
  if r.1 then .ok r.2 else .error 429

/-! ## Token extraction and validation -/

/-- Embedding of the `_extract_token` helper branch: the `authorization` header branch
(rate_limiter.py lines 118-121): `parts = authorization.split()`; a token is
produced only when there are exactly two parts and the first lowercases to
`"bearer"`. -/
def extractAuthToken : Option String → Option String
  | none => none
  | some a =>
    match pySplit a with
    | [p, t] => if pyLower p = "bearer" then some (pyStrip t) else none
    | _ => none

/-- Embedding of `_extract_token` (rate_limiter.py lines 115-122).  Python truthiness:
`if x_api_key:` is taken only for a present, non-empty header; an absent or
empty `X-API-Key` falls through to the `Authorization` header. -/
def extract_token (x_api_key authorization : Option String) : Option String :=
  match x_api_key with
  | some x => if x ≠ "" then some (pyStrip x) else extractAuthToken authorization
  | none => extractAuthToken authorization

/-- Environment of `_is_valid_token`: the `api_tokens` table as a lookup
`token → active` (`none` = row not found), plus whether the token DB
connection works (`dbUp = false` models the `except Exception` branch). -/
structure TokenEnv where
  registry : String → Option Bool
  dbUp : Bool

/-- Embedding of `_is_valid_token` (rate_limiter.py lines 125-134): a DB failure is caught
and reported as `False` (treat as anonymous rather than 500); a missing row is
`False`; otherwise the row's `active` flag. -/
def is_valid_token (env : TokenEnv) (token : String) : Bool :=
  if env.dbUp = false then false
  else
    match env.registry token with
    | none => false
    | some active => active

/-- Embedding of `limit_token_or_ip` (rate_limiter.py lines 157-175): extract a candidate
token; if it is truthy and validates, consume the TOKEN-tier quota keyed
`"tok:<token>"`, otherwise consume the IP-tier quota keyed `"ip:<addr>"`
(`"unknown"` when the request has no client address). -/
def limit_token_or_ip (env : TokenEnv) (ipLimit tokenLimit : ℕ)
    (window now : ℚ) (x_api_key authorization clientIp : Option String)
    (store : Option RateData) : Except ℕ (Option RateData) :=
  match extract_token x_api_key authorization with
  | some t =>
    if t ≠ "" ∧ is_valid_token env t = true then
      hit_or_429 tokenLimit window ("tok:" ++ t) now store
    else
      hit_or_429 ipLimit window ("ip:" ++ clientIp.getD "unknown") now store
  | none => hit_or_429 ipLimit window ("ip:" ++ clientIp.getD "unknown") now store

/-! ## Detector labels and the `/isnude` reduction
(`app/detector/__init__.py`, `app/routes/api.py`) -/

/-- Constant `all_labels` (detector/__init__.py lines 12-31). -/
def all_labels : List String :=
  ["FEMALE_GENITALIA_COVERED", "FACE_FEMALE", "BUTTOCKS_EXPOSED",
   "FEMALE_BREAST_EXPOSED", "FEMALE_GENITALIA_EXPOSED", "MALE_BREAST_EXPOSED",
   "ANUS_EXPOSED", "FEET_EXPOSED", "BELLY_COVERED", "FEET_COVERED",
   "ARMPITS_COVERED", "ARMPITS_EXPOSED", "FACE_MALE", "BELLY_EXPOSED",
   "MALE_GENITALIA_EXPOSED", "ANUS_COVERED", "FEMALE_BREAST_COVERED",
   "BUTTOCKS_COVERED"]

/-- Constant `naughty_labels` (detector/__init__.py lines 33-39). -/
def naughty_labels : List String :=
  ["BUTTOCKS_EXPOSED", "FEMALE_BREAST_EXPOSED", "FEMALE_GENITALIA_EXPOSED",
   "ANUS_EXPOSED", "MALE_GENITALIA_EXPOSED"]

/-- One detection returned by the NudeNet classifier: a dict
`{'class': ..., 'score': ..., 'box': ...}`; only `'class'` is read by the
routes, `score`/`box` are carried opaquely.  `class` is a Lean keyword, so the
field is named `cls`. -/
structure Detection where
  cls : String
  score : ℚ
deriving DecidableEq

/-- Body of the `/isnude` route (api.py lines 72-76): loop over the classifier
results and answer `{"nude": true}` on the first detection whose `'class'` is
in `naughty_labels`, else `{"nude": false}`.  `true`/`false` stand for the two
JSON responses. -/
def isnude (results : List Detection) : Bool :=
  results.any (fun d => naughty_labels.contains d.cls)

/-! ## Reverse proxy (`app/routes/netdata.py`) -/

/-- Constant `_HOP_BY_HOP` (netdata.py lines 42-51). -/
def hop_by_hop : List String :=
  ["connection", "keep-alive", "proxy-authenticate", "proxy-authorization",
   "te", "trailers", "transfer-encoding", "upgrade"]

/-- Header filter used on both legs (netdata.py lines 108 and 148):
`{k: v for k, v in headers.items() if k.lower() not in _HOP_BY_HOP}`.
The Python dict comprehension collapses duplicate names; the model keeps the
header multimap as a list, which only enlarges the set of headers considered. -/
def stripHopByHop (headers : List (String × String)) : List (String × String) :=
  headers.filter (fun kv => !(hop_by_hop.contains kv.1.toLower))

/-- Headers forwarded to the upstream (netdata.py lines 108-111): hop-by-hop
headers dropped, then `fwd_headers.pop("accept-encoding", None)`. -/
def fwdHeaders (reqHeaders : List (String × String)) : List (String × String) :=
  (stripHopByHop reqHeaders).filter (fun kv => kv.1 ≠ "accept-encoding")

/-- httpx case-insensitive `headers.get(name, "")` (first matching header). -/
def headerGet (headers : List (String × String)) (name : String) : String :=
  match headers.find? (fun kv => kv.1.toLower = name) with
  | some kv => kv.2
  | none => ""

/-- Constant `META` (netdata.py line 54). -/
def metaRobots : String := "<meta name=\"robots\" content=\"noindex, nofollow\">"

/-- Constant `CSS` (netdata.py line 53). -/
def cssLink : String := "<link rel=\"stylesheet\" href=\"https://unpkg.com/mvp.css\" />"

/-- Embedding of `_page` (netdata.py lines 59-71), the f-string template with `{{`/`}}`
escapes resolved (literal braces written `\x7b`/`\x7d` here). -/
def page (title body : String) : String :=
  "<!doctype html>\n<html>\n  <head>\n    <title>" ++ (title ++
  ("</title>\n    " ++ (metaRobots ++ ("\n    " ++ (cssLink ++
  ("\n    <style>html,body,iframe\x7bheight:100%;width:100%;margin:0;border:0\x7d</style>\n  </head>\n  <body>\n    "
  ++ (body ++ "\n  </body>\n</html>")))))))

/-- The 502 hint body (netdata.py lines 135-140), an f-string naming the
configured `NETDATA_BASE`. -/
def unreachableHint (base : String) : String :=
  "<h2>Netdata upstream unreachable</h2>" ++ ("<p>Tried: <code>" ++ (base ++
  ("</code>.</p>" ++
   ("<p>On your dev machine, set <code>NETDATA_BASE=http://ndspi.local:19999</code> "
    ++ "(or the Pi\x27s IP) and reload.</p>"))))

/-! ## HTML rewrite (netdata.py lines 151-204)
Literal braces and single quotes inside the JavaScript shim are written with
`\x7b`, `\x7d` and `\x27` escapes. -/

/-- Client-side shim injected into HTML responses (netdata.py lines 168-192),
the exact Python string literal. -/
def shim : String :=
  "\n<script>\n(function()\x7b\n" ++
  "  var prefix = \x27/netdata\x27;\n" ++
  "  var origFetch = window.fetch;\n" ++
  "  window.fetch = function(input, init)\x7b\n" ++
  "    try\x7b\n" ++
  "      var url = (typeof input === \x27string\x27) ? input : input.url;\n" ++
  "      if (url && url.startsWith(\x27/api/\x27)) url = prefix + url;\n" ++
  "      if (typeof input === \x27string\x27) return origFetch(url, init);\n" ++
  "      var req = new Request(url, input);\n" ++
  "      return origFetch(req, init);\n" ++
  "    \x7dcatch(e)\x7b return origFetch(input, init); \x7d\n" ++
  "  \x7d;\n" ++
  "  var origOpen = XMLHttpRequest.prototype.open;\n" ++
  "  XMLHttpRequest.prototype.open = function(method, url)\x7b\n" ++
  "    try\x7b if (typeof url === \x27string\x27 && url.startsWith(\x27/api/\x27)) url = prefix + url; \x7dcatch(e)\x7b\x7d\n" ++
  "    return origOpen.apply(this, [method, url].concat(Array.prototype.slice.call(arguments, 2)));\n" ++
  "  \x7d;\n" ++
  "  var OrigWS = window.WebSocket;\n" ++
  "  window.WebSocket = function(url, protocols)\x7b\n" ++
  "    try\x7b if (typeof url === \x27string\x27 && url.startsWith(\x27/api/\x27)) url = prefix + url; \x7dcatch(e)\x7b\x7d\n" ++
  "    return protocols ? new OrigWS(url, protocols) : new OrigWS(url);\n" ++
  "  \x7d;\n" ++
  "\x7d)();\n</script>\n"

/-- Splitting step of the `re.sub(r"(<head[^>]*>)", ..., count=1)` match: in
the text following a case-insensitive `<head`, `[^>]*>` greedily takes the
run of non-`>` characters and then requires a `>`; `none` when no `>`
remains (then the pattern cannot match there, nor anywhere later). -/
def splitAtGt (s : List Char) : Option (List Char × List Char) :=
  match s.dropWhile (fun c => c ≠ '>') with
  | [] => none
  | g :: r => some (s.takeWhile (fun c => c ≠ '>') ++ [g], r)

/-- Embedding of
`re.sub(r"(<head[^>]*>)", r"\1\n  <base href=\"/netdata/\">", html, count=1, flags=re.IGNORECASE)`
(netdata.py line 157): after the first (leftmost) complete match of the
opening head tag, insert the replacement text; at most one substitution.
In the raw-string replacement, `\1` is the match and `\n` a newline, but the
two `\"` are unknown escapes that `re.sub` leaves alone, so the inserted text
literally contains backslash-quote: `<base href=\"/netdata/\">`. -/
def insertBaseAfterHead (s : List Char) : List Char :=
  match s with
  | [] => []
  | c :: t =>
    if startsWithCI "<head".data (c :: t) then
      match splitAtGt (t.drop 4) with
      | some (chunk, rest) =>
        (c :: t).take 5 ++ chunk ++ ("\n  <base href=\\\"/netdata/\\\">").data ++ rest
      | none => c :: t
    else c :: insertBaseAfterHead t

/-- HTML rewrite performed by `_proxy` on `text/html` bodies (netdata.py
lines 153-199): (1) if the body contains `"<head"` and not `"<base"`
(case-sensitive `in` checks), insert a base tag after the opening head tag
(case-insensitive regex); (2) textually prefix `href="/`, `src="/`,
`action="/` with `/netdata`; (3) if the lowercased body contains `</head>`,
insert the shim before every case-insensitive `</head>`, else append the
shim.  (The `rep_html != html` / `modified` bookkeeping only affects the
`modified` flag, which step 3 sets in both branches.) -/
def rewriteHtml (html : List Char) : List Char :=
  let h1 :=
    if containsSub "<head".data html && !(containsSub "<base".data html) then
      insertBaseAfterHead html
    else html
  let h2 :=
    replaceAll "action=\"/".data "action=\"/netdata/".data
      (replaceAll "src=\"/".data "src=\"/netdata/".data
        (replaceAll "href=\"/".data "href=\"/netdata/".data h1))
  if containsSub "</head>".data (h2.map Char.toLower) then
    replaceAllCI "</head>".data (shim.data ++ "</head>".data) h2
  else h2 ++ shim.data

/-- Result of the `httpx` call inside `_proxy`: either `httpx.RequestError`
(carrying a message that the handler only logs) or an upstream response with
status, headers and body bytes. -/
inductive UpstreamResult where
  | err (msg : String)
  | ok (status : ℕ) (headers : List (String × String)) (content : List Char)

/-- Response produced by `_proxy`: `streamed` records whether the
`StreamingResponse` branch was taken. -/
structure ProxiedResponse where
  status : ℕ
  headers : List (String × String)
  body : List Char
  streamed : Bool
deriving DecidableEq

/-- Embedding of `_proxy` (netdata.py lines 106-212) downstream of the
upstream call.  On `httpx.RequestError`: a fixed diagnostic HTML page at 502
(headers as built by `HTMLResponse`, none added by the handler).  Otherwise:
hop-by-hop headers are stripped from the upstream response; `text/html`
non-empty bodies are rewritten (the shim step always sets `modified`, so the
rewrite branch always returns, popping `content-length`); other bodies pass
through, streamed unless a `content-length` header is present. -/
def proxyRespond (base : String) (up : UpstreamResult) : ProxiedResponse :=
  match up with
  | .err _ =>
    { status := 502, headers := [],
      body := (page "Netdata upstream unreachable" (unreachableHint base)).data,
      streamed := false }
  | .ok status headers content =>
    let ct := (headerGet headers "content-type").toLower
    let respHeaders := stripHopByHop headers
    if containsSub "text/html".data ct.data && !content.isEmpty then
      { status := status,
        headers := respHeaders.filter (fun kv => kv.1 ≠ "content-length"),
        body := rewriteHtml content, streamed := false }
    else if respHeaders.any (fun kv => kv.1.toLower = "content-length") then
      { status := status, headers := respHeaders, body := content,
        streamed := false }
    else
      { status := status, headers := respHeaders, body := content,
        streamed := true }

/-! ## Background stress monitor (netdata.py lines 301-352) -/

/-- MonitorState: the two loop-local variables of `monitor_loop`. -/
structure MonitorState where
  hot_since : Option ℚ
  cool_down_until : ℚ
deriving DecidableEq

/-- Hot/cold decision of one monitor cycle (netdata.py lines 316-323): a
sample is hot when any fetched metric crosses its threshold; a metric whose
fetch failed (`None`) is excluded. -/
def isHot (cpu mem load1 : Option ℚ) (cores : ℕ)
    (cpuTh memTh loadMult : ℚ) : Bool :=
  (match cpu with | none => false | some c => decide (cpuTh ≤ c)) ||
  (match mem with | none => false | some m => decide (memTh ≤ m)) ||
  (match load1 with | none => false | some l => decide ((cores : ℚ) * loadMult ≤ l))

/-- State update of one cycle of `monitor_loop` (netdata.py lines 325-337),
given the current time and the hot/cold decision; the returned `Bool` is
whether `_pushcut` was dispatched this cycle:
not hot → reset `hot_since`; in cooldown → skip; first hot sample → anchor
`hot_since`; anchored for at least `sustain` → dispatch, set
`cool_down_until = now + 300` and re-anchor `hot_since = now`. -/
def monitorStep (sustain : ℚ) (st : MonitorState) (sample : ℚ × Bool) :
    MonitorState × Bool :=
  let now := sample.1
  if sample.2 = false then ({ st with hot_since := none }, false)
  else if now < st.cool_down_until then (st, false)
  else
    match st.hot_since with
    | none => ({ st with hot_since := some now }, false)
    | some h0 =>
      if sustain ≤ now - h0 then
        ({ hot_since := some now, cool_down_until := now + 300 }, true)
      else (st, false)

/-- Iterated `monitor_loop` cycles over a synthetic feed of
(sample time, hot?) pairs, from `hot_since = None`, `cool_down_until = 0.0`
(netdata.py lines 305-306); returns the final state and the times at which a
notification was dispatched. -/
def runMonitor (sustain : ℚ) (st : MonitorState) :
    List (ℚ × Bool) → MonitorState × List ℚ
  | [] => (st, [])
  | s :: rest =>
    let r := monitorStep sustain st s
    let rec' := runMonitor sustain r.1 rest
    (rec'.1, (if r.2 then [s.1] else []) ++ rec'.2)

/-- Feed in which every sample is hot, at the given times. -/
def allHot (ts : List ℚ) : List (ℚ × Bool) := ts.map (fun t => (t, true))

/-- Streak discipline of a feed relative to an anchor: `anchor = some a` means
the current hot streak began at time `a`, and every later sample of the same
streak stays strictly within `sustain` seconds of `a`; a cold sample closes
the streak.  This is exactly "thresholds are crossed for strictly less than
`sustain` seconds before a sample falls below all thresholds". -/
def noLongStreak (sustain : ℚ) (anchor : Option ℚ) : List (ℚ × Bool) → Bool
  | [] => true
  | (t, h) :: rest =>
    if h = false then noLongStreak sustain none rest
    else
      match anchor with
      | none => noLongStreak sustain (some t) rest
      | some a => decide (t - a < sustain) && noLongStreak sustain (some a) rest

/-! ## Monitor startup (netdata.py lines 301-303 and 343-352) -/

/-- Condition under which a worker process starts the monitor loop: the
`_start_monitor` startup hook registered by `mount_monitor` (and the guard at
the top of `monitor_loop`) runs the loop iff `NETDATA_MONITOR=1` and
`PUSHCUT_URL` is non-empty — in every process that executes the startup hook;
the repository contains no leader lock or other cross-process guard. -/
def starts_monitor (netdataMonitor : Bool) (pushcutUrl : String) : Bool :=
  netdataMonitor && pushcutUrl ≠ ""

/-- Number of monitor loops running when `n` sibling worker processes start
with the same environment: each process independently evaluates
`starts_monitor`. -/
def monitorsStarted (n : ℕ) (netdataMonitor : Bool) (pushcutUrl : String) : ℕ :=
  if starts_monitor netdataMonitor pushcutUrl then n else 0

/-- View of the retained timestamps (`ts > now - window`) that `is_allowed`
keeps for `key` before deciding; `[]` when no rate file exists. -/
def keptView (store : Option RateData) (key : String) (window now : ℚ) : List ℚ :=
  match store with
  | none => []
  | some data => (lookupKey data key).filter (fun ts => now - window < ts)

/-- Helper: `setKey` really writes the value under the key. -/
theorem lookupKey_setKey (data : RateData) (key : String) (v : List ℚ) :
    lookupKey (setKey data key v) key = v := by
  induction data with
  | nil => simp [setKey, lookupKey, List.find?]
  | cons kv rest ih =>
    by_cases h : kv.1 = key
    · simp [setKey, h, lookupKey, List.find?]
    · simp only [setKey, if_neg h, lookupKey, List.find?]
      rw [show (decide (kv.1 = key)) = false from decide_eq_false h]
      exact ih

/-! # Theorems -/

/-! ## C2: the `/isnude` boolean reduction -/

/-- C2: the `/isnude` route returns `{"nude": true}` (here `true`) iff some
detection in the classifier output has its `'class'` in `naughty_labels`;
in particular an output containing `"ANUS_EXPOSED"` yields `true` and an
output containing only `"FACE_FEMALE"` yields `false`. -/
theorem isnude_iff_naughty_label :
    (∀ results : List Detection,
        isnude results = true ↔ ∃ d ∈ results, d.cls ∈ naughty_labels)
    ∧ isnude [⟨"FACE_FEMALE", 1⟩, ⟨"ANUS_EXPOSED", 1⟩] = true
    ∧ isnude [⟨"FACE_FEMALE", 1⟩] = false := by
  refine ⟨fun results => ?_, by decide, by decide⟩
  simp [isnude, List.any_eq_true, List.elem_iff]

/-! ## C10: token extraction precedence -/

/-- C10: a present non-empty `X-API-Key` header wins — its stripped value is
the candidate token, whatever the `Authorization` header holds; with
`X-API-Key` absent or empty, the `Authorization` header yields a token
exactly when `split()` gives two parts whose first lowercases to `"bearer"`
(the token being the second part, stripped); every other combination yields
`none` (anonymous). -/
theorem extract_token_spec :
    (∀ (x : String) (auth : Option String), x ≠ "" →
        extract_token (some x) auth = some (pyStrip x))
    ∧ ∀ xk : Option String, xk = none ∨ xk = some "" →
        (∀ a p t, pySplit a = [p, t] → pyLower p = "bearer" →
            extract_token xk (some a) = some (pyStrip t))
        ∧ (∀ a, (∀ p t, pySplit a = [p, t] → pyLower p ≠ "bearer") →
            extract_token xk (some a) = none)
        ∧ extract_token xk none = none := by
  constructor
  · intro x auth hx
    simp [extract_token, hx]
  · intro xk hxk
    have hred : ∀ a : Option String, extract_token xk a = extractAuthToken a := by
      rcases hxk with h | h <;> subst h <;> intro a <;> simp [extract_token]
    refine ⟨?_, ?_, ?_⟩
    · intro a p t hsplit hlow
      rw [hred, extractAuthToken, hsplit]
      simp [hlow]
    · intro a hno
      rw [hred, extractAuthToken]
      rcases hl : pySplit a with _ | ⟨p, _ | ⟨t, _ | _⟩⟩ <;> simp
      exact hno _ _ hl
    · rw [hred, extractAuthToken]

/-- C10 witness: concrete header combinations pushed through
`extract_token_spec`. -/
theorem extract_token_spec_witness :
    extract_token (some " k1 ") (some "Bearer zzz") = some "k1"
    ∧ extract_token none (some "Bearer tok2") = some "tok2"
    ∧ extract_token (some "") (some "Basic abc") = none := by
  refine ⟨?_, ?_, ?_⟩
  · rw [extract_token_spec.1 " k1 " (some "Bearer zzz") (by decide)]
    decide
  · rw [(extract_token_spec.2 none (Or.inl rfl)).1 "Bearer tok2" "Bearer" "tok2"
      (by decide) (by decide)]
    decide
  · refine (extract_token_spec.2 (some "") (Or.inr rfl)).2.1 "Basic abc" ?_
    intro p t hpt
    have he : pySplit "Basic abc" = ["Basic", "abc"] := by decide
    rw [he] at hpt
    obtain ⟨rfl, rfl, -⟩ : "Basic" = p ∧ "abc" = t ∧ True := by
      simpa using hpt
    decide

/-! ## C9: no leader election — every enabled worker runs the monitor -/

/-- C9 counterexample: with two sibling worker processes and the monitor
enabled (`NETDATA_MONITOR=1`, `PUSHCUT_URL` set), both processes start the
Health Monitor loop — not exactly one; no `tryAcquire`-style leader lock
exists in the repository. -/
theorem monitorsStarted_two_not_one :
    monitorsStarted 2 true "https://api.pushcut.io/v1/notifications/x" = 2
    ∧ ¬ monitorsStarted 2 true "https://api.pushcut.io/v1/notifications/x" = 1 := by
  decide

/-- C9 amended: there is no leader lock; every one of the `n` sibling worker
processes whose environment enables the monitor starts its own Health Monitor
loop (and none does when it is disabled). -/
theorem monitorsStarted_every_worker (n : ℕ) (url : String) (h : url ≠ "") :
    monitorsStarted n true url = n
    ∧ ∀ m : ℕ, monitorsStarted m false url = 0 := by
  constructor
  · simp [monitorsStarted, starts_monitor, h]
  · intro m; simp [monitorsStarted, starts_monitor]

/-- C9 amended witness. -/
theorem monitorsStarted_every_worker_witness :
    monitorsStarted 3 true "https://api.pushcut.io/v1/notifications/x" = 3 :=
  (monitorsStarted_every_worker 3 _ (by decide)).1

/-! ## C3: hop-by-hop headers are stripped on both legs -/

/-- Helper: anything surviving the hop-by-hop filter has a name outside
`_HOP_BY_HOP`. -/
theorem stripHopByHop_clean (hs : List (String × String)) :
    (stripHopByHop hs).all (fun kv => !(hop_by_hop.contains kv.1.toLower)) = true := by
  rw [List.all_eq_true]
  intro kv hkv
  exact (List.mem_filter.mp hkv).2

/-- C3: for every inbound request and every upstream result — including
upstream responses carrying hop-by-hop headers — neither the header set
forwarded to the upstream nor the header set of the proxied response contains
a hop-by-hop header (connection, keep-alive, proxy-authenticate,
proxy-authorization, te, trailers, transfer-encoding, upgrade). -/
theorem proxy_strips_hop_by_hop :
    ∀ (reqHeaders : List (String × String)) (base : String) (up : UpstreamResult),
      (fwdHeaders reqHeaders).all
          (fun kv => !(hop_by_hop.contains kv.1.toLower)) = true
      ∧ (proxyRespond base up).headers.all
          (fun kv => !(hop_by_hop.contains kv.1.toLower)) = true := by
  intro reqHeaders base up
  constructor
  · rw [List.all_eq_true]
    intro kv hkv
    have hsub : kv ∈ stripHopByHop reqHeaders := (List.mem_filter.mp hkv).1
    exact (List.mem_filter.mp hsub).2
  · match up with
    | .err msg => simp [proxyRespond]
    | .ok status headers content =>
      show (ProxiedResponse.headers _).all _ = true
      rw [proxyRespond]
      split
      · rw [List.all_eq_true]
        intro kv hkv
        have hsub : kv ∈ stripHopByHop headers := (List.mem_filter.mp hkv).1
        exact (List.mem_filter.mp hsub).2
      · split
        · exact stripHopByHop_clean headers
        · exact stripHopByHop_clean headers

/-! ## C8: upstream failure yields the fixed 502 diagnostic page -/

/-- C8: whenever the upstream call fails with `httpx.RequestError` (connection
error or timeout), the proxy answers status 502 with the fixed diagnostic
HTML page, whose body names the configured upstream base address; the
response does not depend on the underlying error, so the raw connection error
is never propagated to the caller. -/
theorem proxy_unreachable_502 :
    ∀ (base msg msg2 : String),
      (proxyRespond base (.err msg)).status = 502
      ∧ (proxyRespond base (.err msg)).body
          = (page "Netdata upstream unreachable" (unreachableHint base)).data
      ∧ base.data <:+: (proxyRespond base (.err msg)).body
      ∧ proxyRespond base (.err msg) = proxyRespond base (.err msg2) := by
  intro base msg msg2
  refine ⟨rfl, rfl, ?_, rfl⟩
  show base.data <:+: (page "Netdata upstream unreachable" (unreachableHint base)).data
  have h1 : base.data <:+: (unreachableHint base).data := by
    refine ⟨("<h2>Netdata upstream unreachable</h2>" ++ "<p>Tried: <code>").data,
      ("</code>.</p>" ++
       ("<p>On your dev machine, set <code>NETDATA_BASE=http://ndspi.local:19999</code> "
        ++ "(or the Pi\x27s IP) and reload.</p>")).data, ?_⟩
    simp [unreachableHint, String.data_append]
  have h2 : (unreachableHint base).data
      <:+: (page "Netdata upstream unreachable" (unreachableHint base)).data := by
    refine ⟨("<!doctype html>\n<html>\n  <head>\n    <title>" ++
      ("Netdata upstream unreachable" ++ ("</title>\n    " ++ (metaRobots ++
       ("\n    " ++ (cssLink ++
        "\n    <style>html,body,iframe\x7bheight:100%;width:100%;margin:0;border:0\x7d</style>\n  </head>\n  <body>\n    ")))))).data,
      ("\n  </body>\n</html>").data, ?_⟩
    simp [page, String.data_append]
  exact h1.trans h2

/-! ## C4: the HTML rewrite is not idempotent -/

/-- C4: evaluation of the rewrite at a failing input.  The body
`<a href="/x">` contains no `/netdata` prefix; one application yields
`<a href="/netdata/x">` plus the appended shim, but a second application runs
the plain `str.replace` rules again and double-prefixes the reference
(`href="/netdata/netdata/x"`), besides appending a second shim — so applying
the rewrite twice differs from applying it once, contradicting the intended
idempotence. -/
theorem rewriteHtml_not_idempotent :
    rewriteHtml ("<a href=\"/x\">").data
      = ("<a href=\"/netdata/x\">").data ++ shim.data
    ∧ (rewriteHtml (rewriteHtml ("<a href=\"/x\">").data)).take 29
      = ("<a href=\"/netdata/netdata/x\">").data
    ∧ rewriteHtml (rewriteHtml ("<a href=\"/x\">").data)
      ≠ rewriteHtml ("<a href=\"/x\">").data := by
  have h1 : rewriteHtml ("<a href=\"/x\">").data
      = ("<a href=\"/netdata/x\">").data ++ shim.data := by decide
  have h2 : (rewriteHtml (("<a href=\"/netdata/x\">").data ++ shim.data)).take 29
      = ("<a href=\"/netdata/netdata/x\">").data := by decide
  refine ⟨h1, by rw [h1]; exact h2, ?_⟩
  intro heq
  have h3 := congrArg (List.take 29) heq
  rw [h1] at h3
  rw [h2] at h3
  exact absurd h3 (by decide)

/-! ## C5: degraded token paths fall back to the IP tier -/

/-- C5: whenever the presented token is absent or malformed (no candidate
extracted), or strips to the empty string, or is unknown to the token
registry, or is found but inactive, or the registry lookup raises (DB down),
`limit_token_or_ip` behaves exactly as the IP-tier check keyed on the client
address: the request is never rejected outright and the only error it can
produce is the IP-quota 429. -/
theorem limit_token_or_ip_degrades (env : TokenEnv) (ipLimit tokenLimit : ℕ)
    (window now : ℚ) (xk auth clientIp : Option String) (store : Option RateData)
    (hdeg : extract_token xk auth = none
      ∨ ∃ t, extract_token xk auth = some t ∧
          (t = "" ∨ env.dbUp = false ∨ env.registry t = none
            ∨ env.registry t = some false)) :
    limit_token_or_ip env ipLimit tokenLimit window now xk auth clientIp store
      = hit_or_429 ipLimit window ("ip:" ++ clientIp.getD "unknown") now store
    ∧ ∀ e, limit_token_or_ip env ipLimit tokenLimit window now xk auth clientIp store
        = .error e → e = 429 := by
  have herr : ∀ (lim : ℕ) (key : String) (e : ℕ),
      hit_or_429 lim window key now store = .error e → e = 429 := by
    intro lim key e h
    unfold hit_or_429 at h
    by_cases hb : (is_allowed store key lim window now).1 <;> simp [hb] at h
    exact h.symm
  have hmain : limit_token_or_ip env ipLimit tokenLimit window now xk auth clientIp store
      = hit_or_429 ipLimit window ("ip:" ++ clientIp.getD "unknown") now store := by
    unfold limit_token_or_ip
    rcases hdeg with hnone | ⟨t, ht, hcase⟩
    · rw [hnone]
    · rw [ht]
      show (if t ≠ "" ∧ is_valid_token env t = true then
              hit_or_429 tokenLimit window ("tok:" ++ t) now store
            else hit_or_429 ipLimit window ("ip:" ++ clientIp.getD "unknown") now store)
          = hit_or_429 ipLimit window ("ip:" ++ clientIp.getD "unknown") now store
      have hcond : ¬ (t ≠ "" ∧ is_valid_token env t = true) := by
        rcases hcase with h | h | h | h
        · intro hc; exact hc.1 h
        · intro hc
          rw [is_valid_token, if_pos h] at hc
          exact Bool.false_ne_true hc.2
        · intro hc
          have : is_valid_token env t = false := by
            rw [is_valid_token, h]
            split <;> rfl
          rw [this] at hc
          exact Bool.false_ne_true hc.2
        · intro hc
          have : is_valid_token env t = false := by
            rw [is_valid_token, h]
            split <;> rfl
          rw [this] at hc
          exact Bool.false_ne_true hc.2
      exact if_neg hcond
  exact ⟨hmain, by rw [hmain]; exact herr _ _⟩

/-- C5 witness: an inactive token (`active = false` in the registry) is
governed by the IP-tier quota. -/
theorem limit_token_or_ip_degrades_witness :
    limit_token_or_ip ⟨fun t => if t = "tok1" then some false else none, true⟩
        2 30 60 5 (some "tok1") none (some "8.8.8.8") (some [])
      = hit_or_429 2 60 "ip:8.8.8.8" 5 (some [])
    ∧ limit_token_or_ip ⟨fun t => if t = "tok1" then some false else none, true⟩
        2 30 60 5 (some "tok1") none (some "8.8.8.8") (some [])
      = .ok (some [("ip:8.8.8.8", [5])]) := by
  have h := (limit_token_or_ip_degrades
    ⟨fun t => if t = "tok1" then some false else none, true⟩ 2 30 60 5
    (some "tok1") none (some "8.8.8.8") (some [])
    (Or.inr ⟨"tok1", by decide, Or.inr (Or.inr (Or.inr (by simp)))⟩)).1
  exact ⟨h, by rw [h]; rfl⟩

/-! ## C1: moving-window admission -/

/-- Helper: pushing a request sequence for one key through `is_allowed` from a
store that retains exactly `adm` timestamps for that key (all inside the
window of every pending request, which are mutually within one window and
ordered) admits exactly the first `limit - adm.length` requests. -/
theorem runAllowed_aux (key : String) (limit : ℕ) (window : ℚ) :
    ∀ (rest adm : List ℚ),
      (∀ a ∈ adm, ∀ t ∈ rest, t - window < a) →
      rest.Pairwise (fun a b => a ≤ b ∧ b - window < a) →
      (runAllowed (some [(key, adm)]) key limit window rest).1
        = List.replicate (min rest.length (limit - adm.length)) true
          ++ List.replicate (rest.length - (limit - adm.length)) false := by
  intro rest
  induction rest with
  | nil => intro adm _ _; simp [runAllowed]
  | cons t rest ih =>
    intro adm hadm hpw
    have hlook : lookupKey [(key, adm)] key = adm := by
      simp [lookupKey, List.find?]
    have hkept : adm.filter (fun ts => t - window < ts) = adm := by
      rw [List.filter_eq_self]
      intro a ha
      exact decide_eq_true (hadm a ha t (List.mem_cons_self t rest))
    have hpw' := List.pairwise_cons.mp hpw
    by_cases hlim : limit ≤ adm.length
    · have hstep : is_allowed (some [(key, adm)]) key limit window t
          = (false, some [(key, adm)]) := by
        simp [is_allowed, hlook, hkept, hlim]
      have hrec := ih adm
        (fun a ha u hu => hadm a ha u (List.mem_cons_of_mem t hu)) hpw'.2
      have e1 : min ((t :: rest).length) (limit - adm.length) = 0 := by
        simp; omega
      have e2 : (t :: rest).length - (limit - adm.length) = rest.length + 1 := by
        simp; omega
      have e3 : min rest.length (limit - adm.length) = 0 := by omega
      have e4 : rest.length - (limit - adm.length) = rest.length := by omega
      rw [e1, e2]
      show ((is_allowed (some [(key, adm)]) key limit window t).1
          :: (runAllowed (is_allowed (some [(key, adm)]) key limit window t).2
              key limit window rest).1)
        = List.replicate 0 true ++ List.replicate (rest.length + 1) false
      rw [hstep]
      show false :: (runAllowed (some [(key, adm)]) key limit window rest).1 = _
      rw [hrec, e3, e4]
      simp [List.replicate_succ]
    · have hstep : is_allowed (some [(key, adm)]) key limit window t
          = (true, some [(key, adm ++ [t])]) := by
        simp [is_allowed, hlook, hkept, hlim, setKey]
      have hadm' : ∀ a ∈ adm ++ [t], ∀ u ∈ rest, u - window < a := by
        intro a ha u hu
        rcases List.mem_append.mp ha with h | h
        · exact hadm a h u (List.mem_cons_of_mem t hu)
        · have haeq : a = t := by simpa using h
          subst haeq
          exact (hpw'.1 u hu).2
      have hrec := ih (adm ++ [t]) hadm' hpw'.2
      have e1 : min ((t :: rest).length) (limit - adm.length)
          = min rest.length (limit - (adm ++ [t]).length) + 1 := by
        simp; omega
      have e2 : (t :: rest).length - (limit - adm.length)
          = rest.length - (limit - (adm ++ [t]).length) := by
        simp; omega
      rw [e1, e2]
      show ((is_allowed (some [(key, adm)]) key limit window t).1
          :: (runAllowed (is_allowed (some [(key, adm)]) key limit window t).2
              key limit window rest).1)
        = _
      rw [hstep]
      show true :: (runAllowed (some [(key, adm ++ [t])]) key limit window rest).1 = _
      rw [hrec, List.replicate_succ]
      rfl

/-- C1 (amended: for every limit L ≥ 1; equivalently, whenever the backing
store file already exists): the admission check admits iff the count of
retained timestamps strictly inside the trailing window (`ts > now - window`)
is below the limit; exactly on admission the current timestamp is recorded
(on rejection the store is left unchanged); and of a run of more than `limit`
requests lying within one window of each other, in order, starting from a
store with no timestamps for the key, precisely the first `limit` are
admitted — the `limit+1`-th and later are rejected.  (For L = 0 with no store
file the claim fails, see the counterexample.) -/
theorem is_allowed_moving_window (store : Option RateData) (key : String)
    (limit : ℕ) (window now : ℚ) (ts : List ℚ) (hlim : 1 ≤ limit)
    (hpw : ts.Pairwise (fun a b => a ≤ b ∧ b - window < a)) :
    ((is_allowed store key limit window now).1 = true
        ↔ recordedWithin store key window now < limit)
    ∧ ((is_allowed store key limit window now).1 = true →
        ∃ d, (is_allowed store key limit window now).2 = some d
          ∧ lookupKey d key = keptView store key window now ++ [now])
    ∧ ((is_allowed store key limit window now).1 = false →
        (is_allowed store key limit window now).2 = store)
    ∧ (runAllowed (some [(key, [])]) key limit window ts).1
        = List.replicate (min ts.length limit) true
          ++ List.replicate (ts.length - limit) false := by
  refine ⟨?_, ?_, ?_, ?_⟩
  · match store with
    | none =>
      simp [is_allowed, recordedWithin]
      omega
    | some data =>
      by_cases h : limit ≤ ((lookupKey data key).filter
          (fun ts => now - window < ts)).length
      · simp [is_allowed, recordedWithin, h]
      · simp [is_allowed, recordedWithin, h]
        omega
  · match store with
    | none =>
      intro _
      exact ⟨[(key, [now])], rfl, by simp [lookupKey, keptView, List.find?]⟩
    | some data =>
      intro htrue
      by_cases h : limit ≤ ((lookupKey data key).filter
          (fun ts => now - window < ts)).length
      · exact absurd htrue (by simp [is_allowed, h])
      · refine ⟨setKey data key (((lookupKey data key).filter
          (fun ts => now - window < ts)) ++ [now]), ?_, ?_⟩
        · simp [is_allowed, h]
        · rw [lookupKey_setKey]
          simp [keptView]
  · match store with
    | none => intro hfalse; cases hfalse
    | some data =>
      intro hfalse
      by_cases h : limit ≤ ((lookupKey data key).filter
          (fun ts => now - window < ts)).length
      · simp [is_allowed, h]
      · exact absurd hfalse (by simp [is_allowed, h])
  · have haux := runAllowed_aux key limit window ts [] (by intro a ha; simp at ha) hpw
    simpa using haux

/-- C1 counterexample to the unrestricted claim: in the `FileNotFoundError`
branch (no rate file yet) with limit 0, the request is admitted although the
number of previously recorded timestamps inside the window (zero) is not
below the limit. -/
theorem is_allowed_limit_zero_counterexample :
    (is_allowed none "k" 0 60 0).1 = true
    ∧ ¬ recordedWithin none "k" 60 0 < 0 := by decide

/-- C1 witness: with limit 2 and window 60, three requests at times 0, 1, 2
are admitted, admitted, rejected. -/
theorem is_allowed_moving_window_witness :
    (runAllowed (some [("k", [])]) "k" 2 60 [0, 1, 2]).1 = [true, true, false] := by
  have h := (is_allowed_moving_window (some [("k", [])]) "k" 2 60 10 [0, 1, 2]
    (by decide) (by norm_num [List.pairwise_cons])).2.2.2
  rw [h]
  decide

/-! ## C6, C7: monitor temporal behaviour -/

/-- Helper: monitor runs compose over concatenated feeds. -/
theorem runMonitor_append (sustain : ℚ) :
    ∀ (xs ys : List (ℚ × Bool)) (st : MonitorState),
      runMonitor sustain st (xs ++ ys)
        = ((runMonitor sustain (runMonitor sustain st xs).1 ys).1,
           (runMonitor sustain st xs).2
             ++ (runMonitor sustain (runMonitor sustain st xs).1 ys).2) := by
  intro xs
  induction xs with
  | nil => intro ys st; simp [runMonitor]
  | cons s xs ih =>
    intro ys st
    show runMonitor sustain st (s :: (xs ++ ys)) = _
    simp only [runMonitor]
    rw [ih]
    simp [List.append_assoc]

/-- Helper: hot samples that are past no threshold duration and not in
cooldown leave a warming state unchanged and dispatch nothing. -/
theorem monitor_warm_steady (sustain : ℚ) :
    ∀ (ts : List ℚ) (h0 cd : ℚ),
      (∀ t ∈ ts, ¬ t < cd ∧ t - h0 < sustain) →
      runMonitor sustain ⟨some h0, cd⟩ (allHot ts) = (⟨some h0, cd⟩, []) := by
  intro ts
  induction ts with
  | nil => intro h0 cd _; simp [runMonitor, allHot]
  | cons t ts ih =>
    intro h0 cd h
    have ht := h t (List.mem_cons_self t ts)
    have hstep : monitorStep sustain ⟨some h0, cd⟩ (t, true)
        = (⟨some h0, cd⟩, false) := by
      simp [monitorStep, ht.1, not_le.mpr ht.2]
    have hrest := ih h0 cd (fun u hu => h u (List.mem_cons_of_mem t hu))
    show runMonitor sustain ⟨some h0, cd⟩ ((t, true) :: allHot ts) = _
    simp only [runMonitor, hstep]
    simp [hrest]

/-- Helper: while `now < cool_down_until`, hot samples are skipped without
state change or dispatch. -/
theorem monitor_cooldown_quiet (sustain : ℚ) :
    ∀ (ts : List ℚ) (st : MonitorState),
      (∀ t ∈ ts, t < st.cool_down_until) →
      runMonitor sustain st (allHot ts) = (st, []) := by
  intro ts
  induction ts with
  | nil => intro st _; simp [runMonitor, allHot]
  | cons t ts ih =>
    intro st h
    have hstep : monitorStep sustain st (t, true) = (st, false) := by
      simp [monitorStep, h t (List.mem_cons_self t ts)]
    have hrest := ih st (fun u hu => h u (List.mem_cons_of_mem t hu))
    show runMonitor sustain st ((t, true) :: allHot ts) = _
    simp only [runMonitor, hstep]
    simp [hrest]

/-- C6: a feed that is hot from t = 0 onward (sampled at 0, then at the
`preT` times below `sustain`, then at `tStar` with
`sustain ≤ tStar ≤ sustain + 1`, then at later times up to `sustain + 1`)
dispatches exactly one notification, at `tStar ≈ sustain`; that transition
sets `cool_down_until = tStar + 300` and re-anchors `hot_since = tStar`, and
none of the remaining hot samples (all before `cool_down_until`) dispatches
again.  A sample whose CPU reading crosses the CPU threshold is hot. -/
theorem monitor_single_alert (sustain tStar : ℚ) (preT postT : List ℚ)
    (hsorted : (0 :: preT ++ tStar :: postT).Pairwise (· < ·))
    (hpre : ∀ t ∈ preT, t < sustain)
    (hstar : sustain ≤ tStar) (_hstar1 : tStar ≤ sustain + 1)
    (hpost : ∀ t ∈ postT, t ≤ sustain + 1) :
    runMonitor sustain ⟨none, 0⟩ (allHot (0 :: preT ++ tStar :: postT))
        = (⟨some tStar, tStar + 300⟩, [tStar])
    ∧ ∀ (cpu cpuTh memTh loadMult : ℚ) (mem load1 : Option ℚ) (cores : ℕ),
        cpuTh ≤ cpu → isHot (some cpu) mem load1 cores cpuTh memTh loadMult = true := by
  have hcons := List.pairwise_cons.mp hsorted
  have h0lt : ∀ t ∈ preT ++ tStar :: postT, (0:ℚ) < t := hcons.1
  have htSpos : (0:ℚ) < tStar :=
    h0lt tStar (List.mem_append_right _ (List.mem_cons_self _ _))
  constructor
  · have hstep0 : monitorStep sustain ⟨none, 0⟩ (0, true) = (⟨some 0, 0⟩, false) := by
      simp [monitorStep]
    have hphase1 : runMonitor sustain ⟨some 0, 0⟩ (allHot preT) = (⟨some 0, 0⟩, []) := by
      refine monitor_warm_steady sustain preT 0 0 (fun t ht => ⟨?_, ?_⟩)
      · exact not_lt.mpr (le_of_lt (h0lt t (List.mem_append_left _ ht)))
      · rw [sub_zero]; exact hpre t ht
    have hstepStar : monitorStep sustain ⟨some 0, 0⟩ (tStar, true)
        = (⟨some tStar, tStar + 300⟩, true) := by
      simp [monitorStep, not_lt.mpr (le_of_lt htSpos), sub_zero, hstar]
    have hphase3 : runMonitor sustain ⟨some tStar, tStar + 300⟩ (allHot postT)
        = (⟨some tStar, tStar + 300⟩, []) := by
      refine monitor_cooldown_quiet sustain postT _ (fun t ht => ?_)
      show t < tStar + 300
      have h1 := hpost t ht
      linarith
    rw [show allHot (0 :: preT ++ tStar :: postT)
        = (0, true) :: (allHot preT ++ ((tStar, true) :: allHot postT)) by
      simp [allHot]]
    simp only [runMonitor, hstep0]
    rw [runMonitor_append sustain (allHot preT) ((tStar, true) :: allHot postT)]
    rw [hphase1]
    simp only [runMonitor, hstepStar]
    rw [hphase3]
    simp
  · intro cpu cpuTh memTh loadMult mem load1 cores h
    simp [isHot, h]

/-- C6 witness: sustain 2, hot samples at 0, 1, 2, 3: one dispatch at t = 2,
cooldown until 302. -/
theorem monitor_single_alert_witness :
    runMonitor 2 ⟨none, 0⟩ (allHot [0, 1, 2, 3]) = (⟨some 2, 2 + 300⟩, [2]) := by
  have h := (monitor_single_alert 2 2 [1] [3]
    (by norm_num [List.pairwise_cons]) (by norm_num) (by norm_num)
    (by norm_num) (by norm_num)).1
  simpa using h

/-- C7: over any feed whose hot streaks each last strictly less than
`sustain` seconds before a cold sample arrives (`noLongStreak`), the monitor
dispatches no notification at all; moreover every cold sample resets
`hot_since` to `none`. -/
theorem monitor_short_streak_no_alert (sustain : ℚ) (samples : List (ℚ × Bool))
    (hnn : ∀ s ∈ samples, 0 ≤ s.1)
    (hstreak : noLongStreak sustain none samples = true) :
    (runMonitor sustain ⟨none, 0⟩ samples).2 = []
    ∧ ∀ (st : MonitorState) (t : ℚ),
        monitorStep sustain st (t, false) = ({ st with hot_since := none }, false) := by
  have haux : ∀ (l : List (ℚ × Bool)) (anchor : Option ℚ),
      (∀ s ∈ l, 0 ≤ s.1) → noLongStreak sustain anchor l = true →
      (runMonitor sustain ⟨anchor, 0⟩ l).2 = [] := by
    intro l
    induction l with
    | nil => intro anchor _ _; simp [runMonitor]
    | cons s l ih =>
      intro anchor hnn' hstreak'
      obtain ⟨t, h⟩ := s
      have htpos : (0:ℚ) ≤ t := hnn' (t, h) (List.mem_cons_self _ _)
      have hnl : ∀ u ∈ l, (0:ℚ) ≤ u.1 :=
        fun u hu => hnn' u (List.mem_cons_of_mem _ hu)
      match h with
      | false =>
        have hstep : monitorStep sustain ⟨anchor, 0⟩ (t, false)
            = (⟨none, 0⟩, false) := by
          simp [monitorStep]
        have hs' : noLongStreak sustain none l = true := by
          simpa [noLongStreak] using hstreak'
        show (runMonitor sustain ⟨anchor, 0⟩ ((t, false) :: l)).2 = []
        simp only [runMonitor, hstep]
        simp [ih none hnl hs']
      | true =>
        have hnotlt : ¬ t < (0:ℚ) := not_lt.mpr htpos
        match anchor with
        | none =>
          have hstep : monitorStep sustain ⟨none, 0⟩ (t, true)
              = (⟨some t, 0⟩, false) := by
            simp [monitorStep, hnotlt]
          have hs' : noLongStreak sustain (some t) l = true := by
            simpa [noLongStreak] using hstreak'
          show (runMonitor sustain ⟨none, 0⟩ ((t, true) :: l)).2 = []
          simp only [runMonitor, hstep]
          simp [ih (some t) hnl hs']
        | some a =>
          have hsp : (t - a < sustain) ∧ noLongStreak sustain (some a) l = true := by
            simpa [noLongStreak] using hstreak'
          have hstep : monitorStep sustain ⟨some a, 0⟩ (t, true)
              = (⟨some a, 0⟩, false) := by
            simp [monitorStep, hnotlt, not_le.mpr hsp.1]
          show (runMonitor sustain ⟨some a, 0⟩ ((t, true) :: l)).2 = []
          simp only [runMonitor, hstep]
          simp [ih (some a) hnl hsp.2]
  refine ⟨haux samples none hnn hstreak, ?_⟩
  intro st t
  simp [monitorStep]

/-- C7 witness: a streak of length 1 below sustain 5, closed by a cold
sample, then a fresh hot sample: no dispatch. -/
theorem monitor_short_streak_no_alert_witness :
    (runMonitor 5 ⟨none, 0⟩ [(0, true), (1, true), (3, false), (4, true)]).2 = [] :=
  (monitor_short_streak_no_alert 5 [(0, true), (1, true), (3, false), (4, true)]
    (by norm_num) (by norm_num [noLongStreak])).1
